import Mathlib

/-!
Verification development for the cps-growth-copilot analytics engine.

Shallow embedding of:
  * `app/api/scripts/build_item_funnel_features.py` — event normalization
    (action / timestamp decoding), the `user_item_stage` dedup table, and the
    per-item funnel feature rows in `loose` / `strict` mode;
  * `app/api/merchant.py` — timestamp expression `_ts_expr`, D1-retention
    anchor selection, 7-day repurchase, lifecycle segmentation
    (`_segments_payload` / `_segment_sql`), and the export facade
    (`action_export_users`).

Machine integers are modelled as `Int` (DuckDB BIGINT), timestamps as epoch
seconds, calendar days as integers, SQL NULL as `Option`, and SQL strings as
`List Char` so that every operation is kernel-computable.
-/

namespace CpsGrowth

/-- SQL strings are embedded as lists of characters. -/
abbrev Str := List Char

/-- The character list of a Lean string literal. -/
def str (s : String) : Str := s.data

/-- Whitespace characters stripped by SQL / Python trimming. -/
def isSpaceChar (c : Char) : Bool :=
  c = ' ' ∨ c = '\t' ∨ c = '\n' ∨ c = '\r'

/-- Strip leading and trailing whitespace (`strip()` / cast trimming). -/
def trimChars (s : Str) : Str :=
  ((s.dropWhile isSpaceChar).reverse.dropWhile isSpaceChar).reverse

/-- ASCII lower-casing of one character (`LOWER` / `lower()`). -/
def lowerChar (c : Char) : Char :=
  if 'A' ≤ c ∧ c ≤ 'Z' then Char.ofNat (c.toNat + 32) else c

/-- ASCII lower-casing of a string (`LOWER` / `lower()`). -/
def toLowerChars (s : Str) : Str := s.map lowerChar

/-- Decimal digit test. -/
def isDigitChar (c : Char) : Bool :=
  decide ('0' ≤ c) && decide (c ≤ '9')

/-- Value of a digit string (assuming all digits). -/
def digitsToNat (s : Str) : Nat :=
  s.foldl (fun acc c => acc * 10 + (c.toNat - '0'.toNat)) 0

/-- Parse a non-empty all-digit string to a natural number. -/
def toNatChars? (s : Str) : Option Nat :=
  if s ≠ [] ∧ s.all isDigitChar then some (digitsToNat s) else none

/-- Parse an optionally signed integer string. -/
def toIntChars? (s : Str) : Option Int :=
  match s with
  | '-' :: rest => (toNatChars? rest).map fun n => -(n : Int)
  | '+' :: rest => (toNatChars? rest).map fun n => (n : Int)
  | _ => (toNatChars? s).map fun n => (n : Int)

/-- Split a string at every occurrence of a separator character. -/
def splitOnChar (sep : Char) : Str → List Str
  | [] => [[]]
  | c :: rest =>
    let r := splitOnChar sep rest
    if c = sep then [] :: r
    else
      match r with
      | [] => [[c]]
      | h :: t => (c :: h) :: t

/-- Canonical action stages pv / fav / cart / buy. -/
inductive Action where
  | pv
  | fav
  | cart
  | buy
deriving DecidableEq, Repr

/-- A raw source-table cell: either a numeric value or a string value. -/
inductive RawVal where
  | intv (n : Int)
  | strv (s : Str)
deriving DecidableEq, Repr

/-- Integer behavior-code decode: `CASE n WHEN 1 THEN 'pv' WHEN 2 THEN 'fav'
WHEN 3 THEN 'cart' WHEN 4 THEN 'buy' ELSE NULL END`. -/
def intCodeAction (n : Int) : Option Action :=
  if n = 1 then some Action.pv
  else if n = 2 then some Action.fav
  else if n = 3 then some Action.cart
  else if n = 4 then some Action.buy
  else none

/-- The stage filter `action IN ('pv','fav','cart','buy')` applied to the
normalized action string: exact match against the four labels. -/
def labelAction (s : Str) : Option Action :=
  if s = str "pv" then some Action.pv
  else if s = str "fav" then some Action.fav
  else if s = str "cart" then some Action.cart
  else if s = str "buy" then some Action.buy
  else none

/-- DuckDB `TRY_CAST(s AS INTEGER)` on a string: surrounding whitespace is
tolerated by the cast, then the content must parse as an integer. -/
def tryCastInt (s : Str) : Option Int :=
  toIntChars? (trimChars s)

/-- Funnel-builder action normalization (`ub_norm` CASE expression in
`build_item_funnel_features`) composed with the `user_item_stage` filter
`action IN ('pv','fav','cart','buy')`: an integer cell goes through the
integer-code decode; a string cell that `TRY_CAST`s to an integer goes through
the integer-code decode; otherwise the string is lower-cased (no trimming) and
kept only when it is exactly one of the four labels. -/
def decodeActionFB (v : RawVal) : Option Action :=
  match v with
  | RawVal.intv n => intCodeAction n
  | RawVal.strv s =>
    match tryCastInt s with
    | some n => intCodeAction n
    | none => labelAction (toLowerChars s)

/-- Numeric behavior code of each stage (Tianchi encoding 1/2/3/4). -/
def actionCode : Action → Int
  | Action.pv => 1
  | Action.fav => 2
  | Action.cart => 3
  | Action.buy => 4

/-- Canonical string label of each stage. -/
def actionLabel : Action → Str
  | Action.pv => str "pv"
  | Action.fav => str "fav"
  | Action.cart => str "cart"
  | Action.buy => str "buy"

/-- Lexicographic encoding of a calendar timestamp into a single integer.
The SQL layer only observes success/failure of the cast and the relative order
of timestamps, which this encoding preserves on in-range fields. -/
def ymdEncode (y m d hh mi ss : Nat) : Int :=
  Int.ofNat (((((y * 13 + m) * 32 + d) * 24 + hh) * 60 + mi) * 60 + ss)

/-- Parse a `YYYY-MM-DD` date (the date shape accepted by DuckDB timestamp
casting and by `%Y-%m-%d` strptime). -/
def dateFields (s : Str) : Option (Nat × Nat × Nat) :=
  match splitOnChar '-' s with
  | [ys, ms, ds] =>
    match toNatChars? ys, toNatChars? ms, toNatChars? ds with
    | some y, some m, some d =>
      if ys.length = 4 ∧ 1 ≤ m ∧ m ≤ 12 ∧ 1 ≤ d ∧ d ≤ 31 then some (y, m, d) else none
    | _, _, _ => none
  | _ => none

/-- Parse a `HH:MM:SS` time of day (the time shape accepted by DuckDB
timestamp casting and by `%H:%M:%S` strptime). -/
def timeFields (s : Str) : Option (Nat × Nat × Nat) :=
  match splitOnChar ':' s with
  | [hs, ms, ss] =>
    match toNatChars? hs, toNatChars? ms, toNatChars? ss with
    | some hh, some mi, some sec =>
      if hh ≤ 23 ∧ mi ≤ 59 ∧ sec ≤ 59 then some (hh, mi, sec) else none
    | _, _, _ => none
  | _ => none

/-- Model of DuckDB `CAST(s AS TIMESTAMP)` on a string: accepts `YYYY-MM-DD`
and `YYYY-MM-DD HH:MM:SS`; `none` is a conversion failure. -/
def castTimestampStr (s : Str) : Option Int :=
  match splitOnChar ' ' (trimChars s) with
  | [dpart] =>
    match dateFields dpart with
    | some (y, m, d) => some (ymdEncode y m d 0 0 0)
    | none => none
  | [dpart, tpart] =>
    match dateFields dpart, timeFields tpart with
    | some (y, m, d), some (hh, mi, sec) => some (ymdEncode y m d hh mi sec)
    | _, _ => none
  | _ => none

/-- `try_strptime(s, '%Y-%m-%d %H')` from `_ts_expr` in `merchant.py`. -/
def strptimeYmdH (s : Str) : Option Int :=
  match splitOnChar ' ' s with
  | [dpart, hpart] =>
    match dateFields dpart, toNatChars? hpart with
    | some (y, m, d), some hh =>
      if hpart.length ≤ 2 ∧ hh ≤ 23 then some (ymdEncode y m d hh 0 0) else none
    | _, _ => none
  | _ => none

/-- `try_strptime(s, '%Y-%m-%d %H:%M:%S')` from `_ts_expr` in `merchant.py`. -/
def strptimeYmdHms (s : Str) : Option Int :=
  match splitOnChar ' ' s with
  | [dpart, tpart] =>
    match dateFields dpart, timeFields tpart with
    | some (y, m, d), some (hh, mi, sec) => some (ymdEncode y m d hh mi sec)
    | _, _ => none
  | _ => none

/-- `try_strptime(s, '%Y-%m-%d')` from `_ts_expr` in `merchant.py`. -/
def strptimeYmd (s : Str) : Option Int :=
  match dateFields s with
  | some (y, m, d) => some (ymdEncode y m d 0 0 0)
  | none => none

/-- `_ts_expr` in `merchant.py`: `coalesce(try_cast(ts as TIMESTAMP),
try_strptime(ts,'%Y-%m-%d %H'), try_strptime(ts,'%Y-%m-%d %H:%M:%S'),
try_strptime(ts,'%Y-%m-%d'))` — every branch is failure-tolerant, so an
undecodable string yields NULL, and the callers filter `where ts is not null`. -/
def tsExprMerchant (s : Str) : Option Int :=
  match castTimestampStr s with
  | some t => some t
  | none =>
    match strptimeYmdH s with
    | some t => some t
    | none =>
      match strptimeYmdHms s with
      | some t => some t
      | none => strptimeYmd s

/-- Funnel-builder timestamp normalization (`ub_norm` ts CASE expression):
`CASE WHEN TRY_CAST(ts AS BIGINT) IS NOT NULL THEN TRY_CAST(ts AS BIGINT)
ELSE CAST(EPOCH(CAST(ts AS TIMESTAMP)) AS BIGINT) END`. The fallback is a
plain `CAST`, so a string that neither casts to BIGINT nor to TIMESTAMP raises
a conversion error (`Except.error`) instead of being dropped. -/
def tsNormFB (v : RawVal) : Except Unit Int :=
  match v with
  | RawVal.intv n => Except.ok n
  | RawVal.strv s =>
    match tryCastInt s with
    | some n => Except.ok n
    | none =>
      match castTimestampStr s with
      | some t => Except.ok t
      | none => Except.error ()

/-- A raw source-table row for the funnel builder; `none` is SQL NULL. -/
structure RawRow where
  user_id : Option Int
  item_id : Option Int
  action : Option RawVal
  ts : Option RawVal
deriving DecidableEq, Repr

/-- A normalized event as consumed by `user_item_stage` (all fields non-null
and the action one of the four stages). -/
structure NormEvent where
  user_id : Int
  item_id : Int
  action : Action
  ts : Int
deriving DecidableEq, Repr

/-- Row-level funnel-builder normalization: the view's WHERE clause drops rows
with a NULL source field (`ok none`); the ts CASE raises a conversion error on
an undecodable string (`error`); an unrecognized action makes the row fail the
`action IN (...)` stage filter (`ok none`); otherwise the normalized event is
kept (`ok (some e)`). -/
def normalizeRowFB (r : RawRow) : Except Unit (Option NormEvent) :=
  match r.user_id, r.item_id, r.action, r.ts with
  | some u, some i, some a, some t =>
    match tsNormFB t with
    | Except.error e => Except.error e
    | Except.ok ts =>
      match decodeActionFB a with
      | none => Except.ok none
      | some act => Except.ok (some ⟨u, i, act, ts⟩)
  | _, _, _, _ => Except.ok none

/-- Normalization of a whole source table for the funnel builder: any row with
an undecodable timestamp aborts the query with a conversion error. -/
def normalizeFB (rows : List RawRow) : Except Unit (List NormEvent) :=
  match rows with
  | [] => Except.ok []
  | r :: rest =>
    match normalizeRowFB r with
    | Except.error e => Except.error e
    | Except.ok none => normalizeFB rest
    | Except.ok (some e) =>
      match normalizeFB rest with
      | Except.error e2 => Except.error e2
      | Except.ok es => Except.ok (e :: es)

/-- A `user_item_stage` row: earliest timestamp per stage for one
(user, item) pair, NULL when that stage never occurred for the pair. -/
structure UserItemStage where
  user_id : Int
  item_id : Int
  pv_ts : Option Int
  fav_ts : Option Int
  cart_ts : Option Int
  buy_ts : Option Int
deriving DecidableEq, Repr

/-- `MIN(CASE WHEN action = a THEN ts END)` for one (user, item) pair. -/
def stageMin (evs : List NormEvent) (u i : Int) (a : Action) : Option Int :=
  ((evs.filter fun e => decide (e.user_id = u ∧ e.item_id = i ∧ e.action = a)).map
    NormEvent.ts).min?

/-- The `user_item_stage` row of one (user, item) pair. -/
def stageOf (evs : List NormEvent) (u i : Int) : UserItemStage :=
  ⟨u, i, stageMin evs u i Action.pv, stageMin evs u i Action.fav,
    stageMin evs u i Action.cart, stageMin evs u i Action.buy⟩

/-- The distinct (user, item) pairs of the normalized events — the
`GROUP BY user_id, item_id` grouping keys. -/
def stagePairs (evs : List NormEvent) : List (Int × Int) :=
  (evs.map fun e => (e.user_id, e.item_id)).dedup

/-- The whole `user_item_stage` temp table. -/
def userItemStage (evs : List NormEvent) : List UserItemStage :=
  (stagePairs evs).map fun p => stageOf evs p.1 p.2

/-- `fav_ok`: loose requires `pv_ts` and `fav_ts` present with
`fav_ts >= pv_ts`; strict requires `fav_ts > pv_ts`. -/
def favOk (strict : Bool) (s : UserItemStage) : Bool :=
  match s.pv_ts, s.fav_ts with
  | some p, some f => if strict then decide (p < f) else decide (p ≤ f)
  | _, _ => false

/-- `cart_ok`: loose only anchors to pv (`cart_ts >= pv_ts`); strict requires
the full prefix `pv_ts < fav_ts < cart_ts` with all three present. -/
def cartOk (strict : Bool) (s : UserItemStage) : Bool :=
  if strict then
    match s.pv_ts, s.fav_ts, s.cart_ts with
    | some p, some f, some c => decide (p < f ∧ f < c)
    | _, _, _ => false
  else
    match s.pv_ts, s.cart_ts with
    | some p, some c => decide (p ≤ c)
    | _, _ => false

/-- `buy_ok`: loose only anchors to pv (`buy_ts >= pv_ts`); strict requires
all four stages present and `pv_ts < fav_ts < cart_ts < buy_ts`. -/
def buyOk (strict : Bool) (s : UserItemStage) : Bool :=
  if strict then
    match s.pv_ts, s.fav_ts, s.cart_ts, s.buy_ts with
    | some p, some f, some c, some b => decide (p < f ∧ f < c ∧ c < b)
    | _, _, _, _ => false
  else
    match s.pv_ts, s.buy_ts with
    | some p, some b => decide (p ≤ b)
    | _, _ => false

/-- `fav_cart_ok`: fav and cart present, `cart_ts >= fav_ts` (loose) or
`cart_ts > fav_ts` (strict). -/
def favCartOk (strict : Bool) (s : UserItemStage) : Bool :=
  match s.fav_ts, s.cart_ts with
  | some f, some c => if strict then decide (f < c) else decide (f ≤ c)
  | _, _ => false

/-- `cart_buy_ok`: cart and buy present, `buy_ts >= cart_ts` (loose) or
`buy_ts > cart_ts` (strict). -/
def cartBuyOk (strict : Bool) (s : UserItemStage) : Bool :=
  match s.cart_ts, s.buy_ts with
  | some c, some b => if strict then decide (c < b) else decide (c ≤ b)
  | _, _ => false

/-- Null-safe rate `CAST(num AS DOUBLE) / NULLIF(den, 0)`: NULL when the
denominator is zero, the exact ratio otherwise. -/
def rateOf (num den : Nat) : Option ℚ :=
  if den = 0 then none else some ((num : ℚ) / (den : ℚ))

/-- One `item_funnel_features` output row. -/
structure FunnelRow where
  item_id : Int
  pv : Nat
  fav : Nat
  cart : Nat
  buy : Nat
  pv_to_fav_rate : Option ℚ
  pv_to_cart_rate : Option ℚ
  pv_to_buy_rate : Option ℚ
  fav_to_cart_rate : Option ℚ
  cart_to_buy_rate : Option ℚ
deriving DecidableEq, Repr

/-- The aggregate row of `_select_sql` for one item: stage counts are counts
of `user_item_stage` rows of that item satisfying the stage predicate, and
rates are null-safe ratios of those counts. -/
def funnelRow (strict : Bool) (stages : List UserItemStage) (i : Int) : FunnelRow :=
  let rows := stages.filter fun s => decide (s.item_id = i)
  let pvC := rows.countP fun s => s.pv_ts.isSome
  let favC := rows.countP (favOk strict)
  let cartC := rows.countP (cartOk strict)
  let buyC := rows.countP (buyOk strict)
  let favCartC := rows.countP (favCartOk strict)
  let cartBuyC := rows.countP (cartBuyOk strict)
  ⟨i, pvC, favC, cartC, buyC,
    rateOf favC pvC, rateOf cartC pvC, rateOf buyC pvC,
    rateOf favCartC favC, rateOf cartBuyC cartC⟩

/-- The distinct item ids present in `user_item_stage` — the outer
`GROUP BY item_id` grouping keys. -/
def stageItemIds (stages : List UserItemStage) : List Int :=
  (stages.map UserItemStage.item_id).dedup

/-- The whole `item_funnel_features_loose` / `item_funnel_features_strict`
table computed from normalized events. -/
def funnelTable (strict : Bool) (evs : List NormEvent) : List FunnelRow :=
  let stages := userItemStage evs
  (stageItemIds stages).map (funnelRow strict stages)

/-! ### merchant.py: retention, repurchase, segments, export -/

/-- The `day_users` / `e` CTE: distinct `(user, day)` activity facts obtained
by `group by 1,2` over `(uid, date(ts))`. -/
def dayUsers (evs : List (Int × Int)) : List (Int × Int) :=
  evs.dedup

/-- The distinct days present in the data. -/
def daysOf (evs : List (Int × Int)) : List Int :=
  ((dayUsers evs).map Prod.snd).dedup

/-- `max(d)` over the activity facts (the anchor day for segmentation). -/
def maxDay (evs : List (Int × Int)) : Option Int :=
  (daysOf evs).max?

/-- `active_users` of day `d`: distinct users active on `d`. -/
def activeUsers (evs : List (Int × Int)) (d : Int) : Nat :=
  ((dayUsers evs).filter fun p => decide (p.2 = d)).length

/-- `retained_users` of day `d`: distinct users active on `d` that are also
active on `d + 1` (the left join to `day_users b on b.uid=a.uid and
b.d = a.d + interval 1 day`). -/
def retainedUsers (evs : List (Int × Int)) (d : Int) : Nat :=
  ((dayUsers evs).filter fun p =>
    decide (p.2 = d) && decide ((p.1, d + 1) ∈ dayUsers evs)).length

/-- The D1-retention day picked by `_metrics_payload`:
`where d < (select max(d) from ret) order by d desc limit 1`, i.e. the largest
day strictly below the overall maximum day. -/
def d1Day (evs : List (Int × Int)) : Option Int :=
  match maxDay evs with
  | none => none
  | some m => ((daysOf evs).filter fun d => decide (d < m)).max?

/-- The D1-retention payload row. -/
structure RetentionPayload where
  day : Int
  active_users : Nat
  retained_users : Nat
  rate : Option ℚ
deriving DecidableEq, Repr

/-- `d1_retention` of `_metrics_payload`: absent when no day qualifies. -/
def d1Retention (evs : List (Int × Int)) : Option RetentionPayload :=
  match d1Day evs with
  | none => none
  | some d =>
    some ⟨d, activeUsers evs d, retainedUsers evs d,
      rateOf (retainedUsers evs d) (activeUsers evs d)⟩

/-- Distinct buyers (`first_buy` group keys) of a buy-event list `(uid, ts)`. -/
def buyersOf (buys : List (Int × Int)) : List Int :=
  (buys.map Prod.fst).dedup

/-- `first_buy`: `min(ts)` per user over the buy events. -/
def firstBuy (buys : List (Int × Int)) (u : Int) : Option Int :=
  ((buys.filter fun b => decide (b.1 = u)).map Prod.snd).min?

/-- `interval 7 day` in seconds. -/
def sevenDays : Int := 7 * 86400

/-- The `exists (... b2.ts > fb.first_ts and b2.ts <= fb.first_ts + interval
7 day)` repurchaser test of `_metrics_payload`. -/
def isRepurchaser (buys : List (Int × Int)) (u : Int) : Bool :=
  match firstBuy buys u with
  | none => false
  | some ft => buys.any fun b => decide (b.1 = u ∧ ft < b.2 ∧ b.2 ≤ ft + sevenDays)

/-- `repurchasers`: buyers passing the repurchaser test. -/
def repurchasers (buys : List (Int × Int)) : Nat :=
  (buyersOf buys).countP (isRepurchaser buys)

/-- The `repurchase_7d` payload row. -/
structure RepurchasePayload where
  buyers : Nat
  repurchasers_7d : Nat
  rate : Option ℚ
deriving DecidableEq, Repr

/-- `repurchase_7d` of `_metrics_payload`:
`repurchasers::double / nullif(buyers, 0)`. -/
def repurchase7d (buys : List (Int × Int)) : RepurchasePayload :=
  ⟨(buyersOf buys).length, repurchasers buys,
    rateOf (repurchasers buys) (buyersOf buys).length⟩

/-- The distinct active days of one user. -/
def userDays (evs : List (Int × Int)) (u : Int) : List Int :=
  ((dayUsers evs).filter fun p => decide (p.1 = u)).map Prod.snd

/-- The `agg` CTE window restriction of `_segments_payload` / `_segment_sql`:
the user's distinct days with `d >= anchor_day - interval 30 day`. -/
def windowDays (evs : List (Int × Int)) (a u : Int) : List Int :=
  (userDays evs u).filter fun d => decide (a - 30 ≤ d)

/-- The segment CASE of `_segments_payload` / `_segment_sql`, evaluated for
one user: `none` when the user has no activity in the 30-day window (no `agg`
row). `first_day` / `last_day` / `days_7d` are all computed over the
window-restricted day set. -/
def segmentOf (evs : List (Int × Int)) (u : Int) : Option Str :=
  match maxDay evs with
  | none => none
  | some a =>
    let w := windowDays evs a u
    match w.min?, w.max? with
    | some fd, some ld =>
      let d7 := w.countP fun d => decide (a - 7 ≤ d)
      some (if fd = a then str "new"
            else if ld = a ∧ 3 ≤ d7 then str "active"
            else if ld < a ∧ a - 7 ≤ ld then str "warm"
            else str "dormant")
    | _, _ => none

/-- The four segment keys of `_SEG_ZH` in `merchant.py`. -/
def segKeys : List Str :=
  [str "new", str "active", str "warm", str "dormant"]

/-- Segment-name normalization of `_segment_sql`:
`seg = (segment or "").strip().lower(); if seg not in _SEG_ZH: seg = "warm"`. -/
def normalizeSegment (segment : Str) : Str :=
  let seg := toLowerChars (trimChars segment)
  if seg ∈ segKeys then seg else str "warm"

/-- Row-limit clamping of `action_export_users`:
`limit = max(1, min(int(limit), 200000))`. -/
def clampLimit (l : Int) : Int :=
  max 1 (min l 200000)

/-- The distinct users present in the activity facts. -/
def usersOf (evs : List (Int × Int)) : List Int :=
  (evs.map Prod.fst).dedup

/-- `action_export_users`: the segment query of `_segment_sql` (users whose
segment equals the normalized segment name) with the clamped `limit` applied. -/
def exportUsers (evs : List (Int × Int)) (segment : Str) (l : Int) : List Int :=
  ((usersOf evs).filter fun u =>
    decide (segmentOf evs u = some (normalizeSegment segment))).take (clampLimit l).toNat

/-! ### Helper lemmas -/

theorem funnelRow_pv (strict : Bool) (stages : List UserItemStage) (i : Int) :
    (funnelRow strict stages i).pv =
      (stages.filter fun s => decide (s.item_id = i)).countP fun s => s.pv_ts.isSome := rfl

theorem funnelRow_fav (strict : Bool) (stages : List UserItemStage) (i : Int) :
    (funnelRow strict stages i).fav =
      (stages.filter fun s => decide (s.item_id = i)).countP (favOk strict) := rfl

theorem funnelRow_cart (strict : Bool) (stages : List UserItemStage) (i : Int) :
    (funnelRow strict stages i).cart =
      (stages.filter fun s => decide (s.item_id = i)).countP (cartOk strict) := rfl

theorem funnelRow_buy (strict : Bool) (stages : List UserItemStage) (i : Int) :
    (funnelRow strict stages i).buy =
      (stages.filter fun s => decide (s.item_id = i)).countP (buyOk strict) := rfl

theorem funnelRow_item_id (strict : Bool) (stages : List UserItemStage) (i : Int) :
    (funnelRow strict stages i).item_id = i := rfl

theorem funnelRow_pv_to_buy_rate (strict : Bool) (stages : List UserItemStage) (i : Int) :
    (funnelRow strict stages i).pv_to_buy_rate =
      rateOf ((stages.filter fun s => decide (s.item_id = i)).countP (buyOk strict))
        ((stages.filter fun s => decide (s.item_id = i)).countP fun s => s.pv_ts.isSome) := rfl

theorem funnelTable_eq (strict : Bool) (evs : List NormEvent) :
    funnelTable strict evs =
      (stageItemIds (userItemStage evs)).map (funnelRow strict (userItemStage evs)) := rfl

/-- In strict mode, `buy_ok` implies `cart_ok` (the buy chain contains the cart
chain). -/
theorem strict_buy_imp_cart (s : UserItemStage) (h : buyOk true s = true) :
    cartOk true s = true := by
  obtain ⟨u, i, pv, fav, cart, buy⟩ := s
  unfold buyOk cartOk at *
  cases pv <;> cases fav <;> cases cart <;> cases buy <;> simp_all

/-- In strict mode, `cart_ok` implies `fav_ok`. -/
theorem strict_cart_imp_fav (s : UserItemStage) (h : cartOk true s = true) :
    favOk true s = true := by
  obtain ⟨u, i, pv, fav, cart, buy⟩ := s
  unfold cartOk favOk at *
  cases pv <;> cases fav <;> cases cart <;> simp_all

/-- In strict mode, `fav_ok` implies the pair has a pv timestamp. -/
theorem strict_fav_imp_pv (s : UserItemStage) (h : favOk true s = true) :
    s.pv_ts.isSome = true := by
  obtain ⟨u, i, pv, fav, cart, buy⟩ := s
  unfold favOk at h
  cases pv <;> cases fav <;> simp_all

/-- In both modes, `buy_ok` requires the pair to have a pv timestamp. -/
theorem buyOk_imp_pv (strict : Bool) (s : UserItemStage) (h : buyOk strict s = true) :
    s.pv_ts.isSome = true := by
  obtain ⟨u, i, pv, fav, cart, buy⟩ := s
  unfold buyOk at h
  cases strict <;> cases pv <;> cases fav <;> cases cart <;> cases buy <;> simp_all

/-- A null-safe rate of a numerator bounded by its denominator lies in `[0,1]`. -/
theorem rateOf_mem_unit (num den : Nat) (h : num ≤ den) (q : ℚ)
    (hq : rateOf num den = some q) : 0 ≤ q ∧ q ≤ 1 := by
  unfold rateOf at hq
  split at hq
  · exact absurd hq (by simp)
  · next hden =>
    obtain rfl : ((num : ℚ) / (den : ℚ)) = q := Option.some.inj hq
    have hd : (0 : ℚ) < (den : ℚ) := by exact_mod_cast Nat.pos_of_ne_zero hden
    refine ⟨by positivity, ?_⟩
    rw [div_le_one hd]
    exact_mod_cast h

theorem rateOf_den_zero (num : Nat) : rateOf num 0 = none := rfl

/-! ### Claim theorems -/

/-- C1: every item row of the strict-mode funnel table has monotone stage
counts `buy ≤ cart ≤ fav ≤ pv`, because each strict stage predicate requires
the full prefix chain `pv_ts < fav_ts < cart_ts < buy_ts` to be present and
strictly increasing. -/
theorem strict_funnel_monotone (evs : List NormEvent) (r : FunnelRow)
    (hr : r ∈ funnelTable true evs) :
    r.buy ≤ r.cart ∧ r.cart ≤ r.fav ∧ r.fav ≤ r.pv := by
  rw [funnelTable_eq] at hr
  obtain ⟨i, -, rfl⟩ := List.mem_map.mp hr
  rw [funnelRow_buy, funnelRow_cart, funnelRow_fav, funnelRow_pv]
  exact ⟨List.countP_mono_left fun s _ => strict_buy_imp_cart s,
    List.countP_mono_left fun s _ => strict_cart_imp_fav s,
    List.countP_mono_left fun s _ => strict_fav_imp_pv s⟩

/-- Witness for C1 at a one-pair input. -/
theorem strict_funnel_monotone_witness :
    (funnelRow true (userItemStage [⟨1, 1, Action.pv, 0⟩]) 1).buy ≤
        (funnelRow true (userItemStage [⟨1, 1, Action.pv, 0⟩]) 1).cart ∧
      (funnelRow true (userItemStage [⟨1, 1, Action.pv, 0⟩]) 1).cart ≤
        (funnelRow true (userItemStage [⟨1, 1, Action.pv, 0⟩]) 1).fav ∧
      (funnelRow true (userItemStage [⟨1, 1, Action.pv, 0⟩]) 1).fav ≤
        (funnelRow true (userItemStage [⟨1, 1, Action.pv, 0⟩]) 1).pv :=
  strict_funnel_monotone [⟨1, 1, Action.pv, 0⟩] _ (List.mem_singleton.mpr rfl)

/-- C2: in both modes, every item row's `pv_to_buy_rate` is null exactly when
the pv count is zero, and lies in `[0, 1]` whenever it is defined, because the
user-item pairs counted by `buy_ok` (which requires `pv_ts` non-null) are a
subset of those counted by the pv denominator. -/
theorem pv_to_buy_rate_in_unit_interval (strict : Bool) (evs : List NormEvent)
    (r : FunnelRow) (hr : r ∈ funnelTable strict evs) :
    (r.pv = 0 → r.pv_to_buy_rate = none) ∧
    ∀ q : ℚ, r.pv_to_buy_rate = some q → 0 ≤ q ∧ q ≤ 1 := by
  rw [funnelTable_eq] at hr
  obtain ⟨i, -, rfl⟩ := List.mem_map.mp hr
  rw [funnelRow_pv, funnelRow_pv_to_buy_rate]
  have hle : ((userItemStage evs).filter fun s => decide (s.item_id = i)).countP
      (buyOk strict) ≤
      ((userItemStage evs).filter fun s => decide (s.item_id = i)).countP
      (fun s => s.pv_ts.isSome) :=
    List.countP_mono_left fun s _ => buyOk_imp_pv strict s
  constructor
  · intro h0
    rw [h0, rateOf_den_zero]
  · exact fun q hq => rateOf_mem_unit _ _ hle q hq

/-- Witness for C2 at an input with one pv and one buy. -/
theorem pv_to_buy_rate_in_unit_interval_witness :
    0 ≤ (((1 : ℕ) : ℚ) / ((1 : ℕ) : ℚ)) ∧ (((1 : ℕ) : ℚ) / ((1 : ℕ) : ℚ)) ≤ 1 :=
  (pv_to_buy_rate_in_unit_interval false
      [⟨1, 1, Action.pv, 0⟩, ⟨1, 1, Action.buy, 1⟩] _
      (List.mem_singleton.mpr rfl)).2 _ rfl

instance : Std.Antisymm (fun x1 x2 : Int => x1 ≤ x2) :=
  ⟨fun h1 h2 => le_antisymm h1 h2⟩

theorem int_max?_eq_some_iff {a : Int} {xs : List Int} :
    xs.max? = some a ↔ a ∈ xs ∧ ∀ b ∈ xs, b ≤ a :=
  List.max?_eq_some_iff (fun a => le_refl a) (fun a b => max_choice a b)
    (fun _ _ _ => max_le_iff)

theorem int_min?_eq_some_iff {a : Int} {xs : List Int} :
    xs.min? = some a ↔ a ∈ xs ∧ ∀ b ∈ xs, a ≤ b :=
  List.min?_eq_some_iff (fun a => le_refl a) (fun a b => min_choice a b)
    (fun _ _ _ => le_min_iff)

/-- The day the code picks for D1 retention is the greatest non-maximal day. -/
theorem d1Day_eq_some_iff (evs : List (Int × Int)) (d : Int) :
    d1Day evs = some d ↔
      d ∈ daysOf evs ∧ (∃ m ∈ daysOf evs, d < m) ∧
        ∀ e ∈ daysOf evs, (∃ m ∈ daysOf evs, e < m) → e ≤ d := by
  unfold d1Day maxDay
  cases hM : (daysOf evs).max? with
  | none =>
    have hnil : daysOf evs = [] := List.max?_eq_none_iff.mp hM
    simp [hnil]
  | some m =>
    obtain ⟨hmMem, hmMax⟩ := int_max?_eq_some_iff.mp hM
    rw [int_max?_eq_some_iff]
    simp only [List.mem_filter, decide_eq_true_eq]
    constructor
    · rintro ⟨⟨hd, hdm⟩, hub⟩
      refine ⟨hd, ⟨m, hmMem, hdm⟩, ?_⟩
      rintro e he ⟨m2, hm2, hem2⟩
      exact hub e ⟨he, lt_of_lt_of_le hem2 (hmMax m2 hm2)⟩
    · rintro ⟨hd, ⟨m1, hm1, hdm1⟩, hmax⟩
      refine ⟨⟨hd, lt_of_lt_of_le hdm1 (hmMax m1 hm1)⟩, ?_⟩
      rintro b ⟨hb, hbm⟩
      exact hmax b hb ⟨m, hmMem, hbm⟩

/-- The D1 anchor is absent exactly when the data has at most one distinct day. -/
theorem d1Day_eq_none_iff (evs : List (Int × Int)) :
    d1Day evs = none ↔ ∀ a ∈ daysOf evs, ∀ b ∈ daysOf evs, a = b := by
  unfold d1Day maxDay
  cases hM : (daysOf evs).max? with
  | none =>
    have hnil : daysOf evs = [] := List.max?_eq_none_iff.mp hM
    simp [hnil]
  | some m =>
    obtain ⟨hmMem, hmMax⟩ := int_max?_eq_some_iff.mp hM
    rw [List.max?_eq_none_iff, List.filter_eq_nil_iff]
    simp only [decide_eq_true_eq]
    constructor
    · intro h a ha b hb
      have ha' : a = m := le_antisymm (hmMax a ha) (not_lt.mp (h a ha))
      have hb' : b = m := le_antisymm (hmMax b hb) (not_lt.mp (h b hb))
      rw [ha', hb']
    · intro h a ha
      rw [h a ha m hmMem]
      exact lt_irrefl m

/-- C3 counterexample: on activity days `{0, 1, 3}` the code picks day `1` as
the D1 anchor even though day `2` is not in the data, and on days `{0, 2}` the
metric is present even though no day has its successor present — contradicting
the claim that the anchor is the maximum `d` with `d+1` present and that the
metric is absent when no such `d` exists. -/
theorem d1_anchor_counterexample :
    d1Day [(1, 0), (1, 1), (1, 3)] = some 1 ∧
    (1 + 1) ∉ daysOf [(1, 0), (1, 1), (1, 3)] ∧
    d1Retention [(1, 0), (1, 2)] ≠ none := by decide

/-- C3 (amended): the D1 anchor is the greatest day strictly below the overall
maximum day (whether or not its successor day is present in the data); for
consecutive days 2024-01-01 .. 2024-01-05 (days 0..4) this is 2024-01-04
(day 3); the metric is absent exactly when the data holds fewer than two
distinct days. -/
theorem d1_anchor_amended :
    (∀ (evs : List (Int × Int)) (d : Int),
      d1Day evs = some d ↔
        d ∈ daysOf evs ∧ (∃ m ∈ daysOf evs, d < m) ∧
          ∀ e ∈ daysOf evs, (∃ m ∈ daysOf evs, e < m) → e ≤ d) ∧
    d1Day [(1, 0), (1, 1), (1, 2), (1, 3), (1, 4)] = some 3 ∧
    ∀ evs : List (Int × Int),
      d1Day evs = none ↔ ∀ a ∈ daysOf evs, ∀ b ∈ daysOf evs, a = b :=
  ⟨d1Day_eq_some_iff, by decide, d1Day_eq_none_iff⟩

/-- Witness for C3 (amended) at the two-day input `{0, 2}`. -/
theorem d1_anchor_amended_witness :
    d1Day [(1, 0), (1, 2)] = some 0 :=
  (d1_anchor_amended.1 [(1, 0), (1, 2)] 0).mpr
    ⟨by decide, ⟨2, by decide, by decide⟩, by decide⟩

/-- An item id appears in `user_item_stage` exactly when some normalized event
has that item id. -/
theorem stage_item_mem (evs : List NormEvent) (i : Int) :
    i ∈ stageItemIds (userItemStage evs) ↔ ∃ e ∈ evs, e.item_id = i := by
  unfold stageItemIds userItemStage stagePairs
  simp only [List.mem_dedup, List.mem_map, stageOf]
  constructor
  · rintro ⟨s, ⟨p, ⟨e, he, rfl⟩, rfl⟩, rfl⟩
    exact ⟨e, he, rfl⟩
  · rintro ⟨e, he, rfl⟩
    exact ⟨stageOf evs e.user_id e.item_id,
      ⟨(e.user_id, e.item_id), ⟨e, he, rfl⟩, rfl⟩, rfl⟩

/-- C4 counterexample: an item whose only event is a fav (no pv at all) still
appears in both funnel output tables, with a zero pv count — contradicting the
claim that such an item is excluded entirely. -/
theorem zero_pv_item_counterexample :
    (funnelTable false [⟨1, 7, Action.fav, 5⟩]).map FunnelRow.item_id = [7] ∧
    (funnelTable true [⟨1, 7, Action.fav, 5⟩]).map FunnelRow.item_id = [7] ∧
    (funnelRow false (userItemStage [⟨1, 7, Action.fav, 5⟩]) 7).pv = 0 ∧
    (funnelRow true (userItemStage [⟨1, 7, Action.fav, 5⟩]) 7).pv = 0 := by decide

/-- C4 (amended): an item appears in the funnel output exactly when some
normalized event (of any recognized action, not only pv) mentions it; an item
row with a zero pv count then reports null pv-anchored rates and a zero buy
count rather than being excluded. -/
theorem zero_pv_item_amended (strict : Bool) (evs : List NormEvent) (i : Int) :
    ((∃ r ∈ funnelTable strict evs, r.item_id = i) ↔ ∃ e ∈ evs, e.item_id = i) ∧
    ((funnelRow strict (userItemStage evs) i).pv = 0 →
      (funnelRow strict (userItemStage evs) i).pv_to_buy_rate = none ∧
      (funnelRow strict (userItemStage evs) i).buy = 0) := by
  constructor
  · rw [funnelTable_eq]
    simp only [List.mem_map]
    constructor
    · rintro ⟨r, ⟨j, hj, rfl⟩, hji⟩
      rw [funnelRow_item_id] at hji
      exact (stage_item_mem evs i).mp (hji ▸ hj)
    · intro h
      exact ⟨funnelRow strict (userItemStage evs) i,
        ⟨i, (stage_item_mem evs i).mpr h, rfl⟩, funnelRow_item_id ..⟩
  · intro h0
    have hle : (funnelRow strict (userItemStage evs) i).buy ≤
        (funnelRow strict (userItemStage evs) i).pv := by
      rw [funnelRow_buy, funnelRow_pv]
      exact List.countP_mono_left fun s _ => buyOk_imp_pv strict s
    refine ⟨?_, by omega⟩
    rw [funnelRow_pv_to_buy_rate]
    rw [funnelRow_pv] at h0
    rw [h0, rateOf_den_zero]

/-- Witness for C4 (amended) at the fav-only input. -/
theorem zero_pv_item_amended_witness :
    (funnelRow false (userItemStage [⟨1, 7, Action.fav, 5⟩]) 7).pv_to_buy_rate = none ∧
    (funnelRow false (userItemStage [⟨1, 7, Action.fav, 5⟩]) 7).buy = 0 :=
  (zero_pv_item_amended false [⟨1, 7, Action.fav, 5⟩] 7).2 (by decide)

/-- C5 counterexample: a user active on day 0 and day 40 (anchor day 40) has
global earliest active day 0 ≠ anchor, yet the code classifies the user as
`new`, because `first_day` is computed only over the 30-day window —
contradicting the claim that `first_day` is global and that a user whose
earliest activity predates the window is never `new`. -/
theorem segment_new_counterexample :
    segmentOf [(1, 0), (1, 40)] 1 = some (str "new") ∧
    (userDays [(1, 0), (1, 40)] 1).min? = some 0 ∧
    maxDay [(1, 0), (1, 40)] = some 40 := by decide

/-- C5 (amended): a user is classified `new` exactly when the minimum of the
user's active days restricted to the 30-day lookback window equals the anchor
day; the window-limited `first_day` — not the global one — drives the rule, so
a user with pre-window history whose only in-window activity is the anchor day
is still `new`. -/
theorem segment_new_amended (evs : List (Int × Int)) (u : Int) :
    segmentOf evs u = some (str "new") ↔
      ∃ a, maxDay evs = some a ∧ (windowDays evs a u).min? = some a := by
  unfold segmentOf
  cases hM : maxDay evs with
  | none => simp
  | some a =>
    dsimp only
    simp only [Option.some.injEq, exists_eq_left']
    cases hmin : (windowDays evs a u).min? with
    | none =>
      have hnil : windowDays evs a u = [] := List.min?_eq_none_iff.mp hmin
      rw [hnil]
      simp
    | some fd =>
      have hne : windowDays evs a u ≠ [] := by
        intro hnil
        rw [hnil] at hmin
        exact Option.noConfusion hmin
      obtain ⟨ld, hmax⟩ : ∃ ld, (windowDays evs a u).max? = some ld := by
        cases hmx : (windowDays evs a u).max? with
        | none => exact absurd (List.max?_eq_none_iff.mp hmx) hne
        | some ld => exact ⟨ld, rfl⟩
      rw [hmax]
      dsimp only
      have hnew1 : str "active" ≠ str "new" := by decide
      have hnew2 : str "warm" ≠ str "new" := by decide
      have hnew3 : str "dormant" ≠ str "new" := by decide
      by_cases hfd : fd = a
      · simp [hfd]
      · simp only [Option.some.injEq, if_neg hfd]
        constructor
        · intro h
          exfalso
          split_ifs at h <;> [exact hnew1 h; exact hnew2 h; exact hnew3 h]
        · intro h
          exact absurd h hfd

/-- Witness for C5 (amended): a user first seen on the anchor day is `new`. -/
theorem segment_new_amended_witness :
    segmentOf [(1, 5)] 1 = some (str "new") :=
  (segment_new_amended [(1, 5)] 1).mpr ⟨5, by decide, by decide⟩

theorem intCodeAction_eq_some (n : Int) (a : Action) :
    intCodeAction n = some a ↔ n = actionCode a := by
  unfold intCodeAction actionCode
  cases a <;> split_ifs <;> simp_all

theorem labelAction_eq_some (s : Str) (a : Action) :
    labelAction s = some a ↔ s = actionLabel a := by
  unfold labelAction actionLabel
  cases a <;> split_ifs <;> first
    | (subst_vars; decide)
    | simp_all

/-- C6 counterexample: the string action `" pv "` (one of the four labels once
whitespace is trimmed) is dropped by the funnel builder, because its string
branch lower-cases but does not trim — contradicting the claim that such a row
is accepted. -/
theorem action_trim_counterexample :
    decodeActionFB (RawVal.strv (str " pv ")) = none := by decide

/-- C6 (amended): action decoding tries the integer decode first (`1..4` map
to the four stages, any other integer is dropped); a non-integer string is
lower-cased without trimming and accepted only when it then equals one of the
four labels exactly, so a whitespace-padded label is dropped, not accepted. -/
theorem action_decode_amended (v : RawVal) (a : Action) :
    decodeActionFB v = some a ↔
      (match v with
       | RawVal.intv n => n = actionCode a
       | RawVal.strv s =>
         tryCastInt s = some (actionCode a) ∨
           (tryCastInt s = none ∧ toLowerChars s = actionLabel a)) := by
  have hstrv : ∀ s : Str, decodeActionFB (RawVal.strv s) =
      match tryCastInt s with
      | some n => intCodeAction n
      | none => labelAction (toLowerChars s) := fun _ => rfl
  cases v with
  | intv n =>
    simpa using intCodeAction_eq_some n a
  | strv s =>
    cases hc : tryCastInt s with
    | some n =>
      rw [hstrv s, hc]
      simp [hc, intCodeAction_eq_some]
    | none =>
      rw [hstrv s, hc]
      simp [hc, labelAction_eq_some]

/-- Witness for C6 (amended): the upper-cased label `BUY` decodes to the buy
stage through the string branch. -/
theorem action_decode_amended_witness :
    decodeActionFB (RawVal.strv (str "BUY")) = some Action.buy :=
  (action_decode_amended (RawVal.strv (str "BUY")) Action.buy).mpr
    (Or.inr ⟨by decide, by decide⟩)

/-- C7: a user with first buy at `first_ts` is counted as a 7-day repurchaser
exactly when another of the user's buy events lies strictly after `first_ts`
and at most `first_ts + 7 days` (inclusive upper bound); `first_ts` is a lower
bound of all the user's buys; a second buy exactly 7 days later counts, 8 days
later does not; the rate is null-safe in the number of distinct buyers. -/
theorem repurchase_window_characterization :
    (∀ (buys : List (Int × Int)) (u ft : Int), firstBuy buys u = some ft →
      ((isRepurchaser buys u = true ↔
          ∃ b ∈ buys, b.1 = u ∧ ft < b.2 ∧ b.2 ≤ ft + 7 * 86400) ∧
        ∀ b ∈ buys, b.1 = u → ft ≤ b.2)) ∧
    isRepurchaser [(1, 0), (1, 7 * 86400)] 1 = true ∧
    isRepurchaser [(1, 0), (1, 8 * 86400)] 1 = false ∧
    (repurchase7d []).rate = none := by
  refine ⟨?_, by decide, by decide, rfl⟩
  intro buys u ft hft
  constructor
  · unfold isRepurchaser
    rw [hft, List.any_eq_true]
    simp [sevenDays]
  · intro b hb hbu
    unfold firstBuy at hft
    obtain ⟨-, hlb⟩ := int_min?_eq_some_iff.mp hft
    exact hlb b.2 (List.mem_map.mpr ⟨b, List.mem_filter.mpr ⟨hb, by simp [hbu]⟩, rfl⟩)

/-- Witness for C7 at a two-buy input. -/
theorem repurchase_window_witness :
    isRepurchaser [(1, 0), (1, 5)] 1 = true :=
  ((repurchase_window_characterization.1 [(1, 0), (1, 5)] 1 0 (by decide)).1).mpr
    ⟨(1, 5), by decide, by decide, by decide, by decide⟩

/-- Replace the four integer behavior codes by their string labels; leaves any
other cell unchanged. -/
def stringifyAction (v : RawVal) : RawVal :=
  match v with
  | RawVal.intv 1 => RawVal.strv (str "pv")
  | RawVal.intv 2 => RawVal.strv (str "fav")
  | RawVal.intv 3 => RawVal.strv (str "cart")
  | RawVal.intv 4 => RawVal.strv (str "buy")
  | x => x

/-- Apply `stringifyAction` to the action cell of a raw row. -/
def stringifyRow (r : RawRow) : RawRow :=
  { r with action := r.action.map stringifyAction }

theorem decode_stringify (k : Int) (h1 : 1 ≤ k) (h4 : k ≤ 4) :
    decodeActionFB (stringifyAction (RawVal.intv k)) = decodeActionFB (RawVal.intv k) := by
  have hk : k = 1 ∨ k = 2 ∨ k = 3 ∨ k = 4 := by omega
  rcases hk with rfl | rfl | rfl | rfl <;> decide

theorem normalizeRow_stringify (r : RawRow)
    (h : ∀ v, r.action = some v → ∃ k : Int, 1 ≤ k ∧ k ≤ 4 ∧ v = RawVal.intv k) :
    normalizeRowFB (stringifyRow r) = normalizeRowFB r := by
  obtain ⟨u, i, a, t⟩ := r
  cases u <;> cases i <;> cases a <;> cases t <;> try rfl
  rename_i u i v t
  obtain ⟨k, h1, h4, rfl⟩ := h v rfl
  show normalizeRowFB ⟨some u, some i, some (stringifyAction (RawVal.intv k)), some t⟩ =
    normalizeRowFB ⟨some u, some i, some (RawVal.intv k), some t⟩
  unfold normalizeRowFB
  cases tsNormFB t <;> simp [decode_stringify k h1 h4]

theorem normalizeFB_stringify (rows : List RawRow)
    (h : ∀ r ∈ rows, ∀ v, r.action = some v → ∃ k : Int, 1 ≤ k ∧ k ≤ 4 ∧ v = RawVal.intv k) :
    normalizeFB (rows.map stringifyRow) = normalizeFB rows := by
  induction rows with
  | nil => rfl
  | cons r rest ih =>
    have hr := normalizeRow_stringify r (h r (List.mem_cons_self r rest))
    have hrest := ih fun r' hr' v hv => h r' (List.mem_cons_of_mem r hr') v hv
    simp only [List.map_cons]
    unfold normalizeFB
    rw [hr, hrest]

/-- C8: a raw dataset whose action column holds only the integer codes 1..4
normalizes, and hence produces funnel output, identically to the same dataset
with the actions replaced by the string labels pv/fav/cart/buy, in both modes. -/
theorem behavior_code_equivalence (rows : List RawRow)
    (h : ∀ r ∈ rows, ∀ v, r.action = some v → ∃ k : Int, 1 ≤ k ∧ k ≤ 4 ∧ v = RawVal.intv k) :
    normalizeFB (rows.map stringifyRow) = normalizeFB rows ∧
    ∀ strict : Bool,
      (normalizeFB (rows.map stringifyRow)).map (funnelTable strict) =
        (normalizeFB rows).map (funnelTable strict) := by
  have he := normalizeFB_stringify rows h
  exact ⟨he, fun strict => by rw [he]⟩

/-- Witness for C8 at a one-row numeric-code input. -/
theorem behavior_code_equivalence_witness :
    normalizeFB ([(⟨some 1, some 7, some (RawVal.intv 1), some (RawVal.intv 10)⟩ : RawRow)].map
        stringifyRow) =
      normalizeFB [⟨some 1, some 7, some (RawVal.intv 1), some (RawVal.intv 10)⟩] :=
  (behavior_code_equivalence [⟨some 1, some 7, some (RawVal.intv 1), some (RawVal.intv 10)⟩]
    (by
      intro r hr v hv
      rw [List.mem_singleton] at hr
      subst hr
      obtain rfl : RawVal.intv 1 = v := Option.some.inj hv
      exact ⟨1, by decide, by decide, rfl⟩)).1

/-- C9: a raw row whose timestamp string decodes under none of the accepted
formats is silently dropped by the merchant-side normalizer (`_ts_expr` yields
NULL and the row is filtered), but the funnel builder raises a conversion
error on the same row, because its fallback uses a plain `CAST` to TIMESTAMP
instead of `TRY_CAST` — so the claim that every normalizing component drops
such rows silently fails on the funnel builder. -/
theorem ts_decode_divergence :
    tsExprMerchant (str "garbage") = none ∧
    tsNormFB (RawVal.strv (str "garbage")) = Except.error () ∧
    normalizeFB [⟨some 1, some 7, some (RawVal.strv (str "pv")),
      some (RawVal.strv (str "garbage"))⟩] = Except.error () ∧
    tsExprMerchant (str "2024-01-02") = some (ymdEncode 2024 1 2 0 0 0) :=
  ⟨by decide, rfl, rfl, by decide⟩

/-- C10: a segment name that is not one of new/active/warm/dormant after
trimming and lower-casing (including the empty string) is silently replaced by
`warm`, making the export return warm-segment results; and the export row
limit is always clamped into `[1, 200000]`. -/
theorem segment_fallback_and_clamp (s : Str) (evs : List (Int × Int)) (l : Int) :
    (toLowerChars (trimChars s) ∉ segKeys →
      normalizeSegment s = str "warm" ∧
        exportUsers evs s l = exportUsers evs (str "warm") l) ∧
    normalizeSegment [] = str "warm" ∧
    1 ≤ clampLimit l ∧ clampLimit l ≤ 200000 ∧
    (exportUsers evs s l).length ≤ 200000 := by
  have hwarm : normalizeSegment (str "warm") = str "warm" := by decide
  have hclamp : clampLimit l ≤ 200000 :=
    max_le (by norm_num) (min_le_right l 200000)
  refine ⟨?_, by decide, le_max_left 1 _, hclamp, ?_⟩
  · intro h
    have hs : normalizeSegment s = str "warm" := by
      unfold normalizeSegment
      rw [if_neg h]
    refine ⟨hs, ?_⟩
    unfold exportUsers
    rw [hs, hwarm]
  · unfold exportUsers
    calc (((usersOf evs).filter fun u =>
          decide (segmentOf evs u = some (normalizeSegment s))).take
            (clampLimit l).toNat).length ≤ (clampLimit l).toNat := by
          rw [List.length_take]
          exact min_le_left ..
      _ ≤ 200000 := by omega

/-- Witness for C10 at the segment name `bogus` and limit 999999. -/
theorem segment_fallback_and_clamp_witness :
    normalizeSegment (str "bogus") = str "warm" ∧
    1 ≤ clampLimit 999999 ∧ clampLimit 999999 ≤ 200000 :=
  ⟨((segment_fallback_and_clamp (str "bogus") [] 999999).1 (by decide)).1,
    (segment_fallback_and_clamp (str "bogus") [] 999999).2.2.1,
    (segment_fallback_and_clamp (str "bogus") [] 999999).2.2.2.1⟩

end CpsGrowth
